import Mathlib

/-!
Verification of the wind-bidding stochastic-programming repository
(Assignment_2: scenario generation, one-price and two-price settlement objectives,
CVaR objective, fixed-strategy evaluation and cross-validation).

The Python sources are shallowly embedded over exact rational arithmetic:
hourly arrays become `List ℚ` accessed with `getD` (index-aligned, default 0),
bid vectors become functions `ℕ → ℚ`, and Python exceptions become explicit
`Except`/`Option` failure values.
-/

namespace REM

/-- Settlement scheme tag: the Python code passes the strings one / two. -/
inductive Scheme
  | one
  | two
deriving DecidableEq

/-- A scenario record as produced by `create_combined_scenarios` in
scenarios.py: hourly wind (already scaled to MW), day-ahead price,
balancing price and binary system flag. -/
structure Scenario where
  wind : List ℚ
  price_da : List ℚ
  price_bal : List ℚ
  system : List ℚ
deriving DecidableEq

instance : Inhabited Scenario := ⟨⟨[], [], [], []⟩⟩

/-- Hourly wind access `s["wind"][t]`. -/
def Scenario.windAt (sc : Scenario) (t : ℕ) : ℚ := sc.wind.getD t 0

/-- Hourly day-ahead price access `s["price_da"][t]`. -/
def Scenario.priceAt (sc : Scenario) (t : ℕ) : ℚ := sc.price_da.getD t 0

/-- Hourly system-flag access `s["system"][t]`. -/
def Scenario.sysAt (sc : Scenario) (t : ℕ) : ℚ := sc.system.getD t 0

/-- Python exceptions that the embedded control flow can raise. -/
inductive PyError
  | zeroDivisionError
  | indexError
  | unboundLocalError
deriving DecidableEq

/-!  Fixed-Strategy Evaluator: `evaluate_profit` in Task_1.1_1.2_1.3.py
(lines 234-278). -/

/-- Per-hour revenue term computed inside the double loop of
`evaluate_profit`: branch on the sign of `imbalance = wind - bid`, then on
the scheme and the system flag, exactly as the source does. -/
def evalHourRevenue (scheme : Scheme) (sc : Scenario) (bid : ℚ) (t : ℕ) : ℚ :=
  let wind := sc.windAt t
  let p := sc.priceAt t
  let fl := sc.sysAt t
  let imbalance := wind - bid
  if 0 ≤ imbalance then
    match scheme with
    | .one => p * bid + (if fl = 1 then (0.85 : ℚ) else 1.25) * p * imbalance
    | .two => p * bid + (if fl = 1 then (0.85 : ℚ) else 1.00) * p * imbalance
  else
    match scheme with
    | .one => p * bid - (if fl = 1 then (0.85 : ℚ) else 1.25) * p * (-imbalance)
    | .two => p * bid - (if fl = 1 then (1.00 : ℚ) else 1.25) * p * (-imbalance)

/-- The 24-hour profit of one scenario under a fixed bid vector
(`scenario_profit` accumulator in `evaluate_profit`). -/
def scenarioProfit (scheme : Scheme) (sc : Scenario) (offers : ℕ → ℚ) : ℚ :=
  ((List.range 24).map (fun t => evalHourRevenue scheme sc (offers t) t)).sum

/-- Total profit over a scenario list (`total_profit` in `evaluate_profit`). -/
def evalTotal (offers : ℕ → ℚ) (scenarios : List Scenario) (scheme : Scheme) : ℚ :=
  (scenarios.map (fun sc => scenarioProfit scheme sc offers)).sum

/-- The Fixed-Strategy Evaluator `evaluate_profit`: average realized profit of
a fixed bid vector over a scenario list.  Dividing by `len(scenarios)` raises
ZeroDivisionError in Python when the list is empty, so the embedding returns
`Except`. -/
def evaluate_profit (offers : ℕ → ℚ) (scenarios : List Scenario) (scheme : Scheme) :
    Except PyError ℚ :=
  if scenarios.length = 0 then .error .zeroDivisionError
  else .ok (evalTotal offers scenarios scheme / scenarios.length)

/-!  Spec-side settlement multiplier table (§4.3 of the spec). -/

/-- Modelled from the spec: excess multiplier of the settlement table —
one-price pays 0.85 when the system is in deficit (flag 1) and 1.25 in
surplus; two-price pays 0.85 in deficit and 1.00 in surplus. -/
def m_exc (scheme : Scheme) (flag : ℚ) : ℚ :=
  match scheme with
  | .one => if flag = 1 then 0.85 else 1.25
  | .two => if flag = 1 then 0.85 else 1.00

/-- Modelled from the spec: deficit multiplier of the settlement table —
one-price charges 0.85 in system deficit (flag 1) and 1.25 in surplus;
two-price charges 1.00 in deficit and 1.25 in surplus. -/
def m_def (scheme : Scheme) (flag : ℚ) : ℚ :=
  match scheme with
  | .one => if flag = 1 then 0.85 else 1.25
  | .two => if flag = 1 then 1.00 else 1.25

/-!  Objective Formulators: the expected-revenue LP objective `revenue(m)`
in Task_1.1_1.2_1.3.py (lines 103-123); the same expression appears in
Task_1.py and, weighted, in Task_1_4.py. -/

/-- The per-scenario, per-hour summand of the LP objective: day-ahead payment
plus the system-flag-weighted imbalance settlement of the chosen scheme,
written with the flag multiplications of the source. -/
def objectiveTerm (scheme : Scheme) (sc : Scenario) (t : ℕ)
    (offer exc dfc : ℚ) : ℚ :=
  sc.priceAt t * offer
    + (match scheme with
       | .one => (0.85 * sc.priceAt t * exc - 0.85 * sc.priceAt t * dfc) * sc.sysAt t
       | .two => (0.85 * sc.priceAt t * exc - sc.priceAt t * dfc) * sc.sysAt t)
    + (match scheme with
       | .one => (1.25 * sc.priceAt t * exc - 1.25 * sc.priceAt t * dfc) * (1 - sc.sysAt t)
       | .two => (sc.priceAt t * exc - 1.25 * sc.priceAt t * dfc) * (1 - sc.sysAt t))

/-- Average over scenarios of the hour-`t` objective summands; the hour-`t`
share of the LP objective value. -/
def objectiveHourlyAvg (scheme : Scheme) (scens : List Scenario)
    (offer : ℕ → ℚ) (exc dfc : ℕ → ℕ → ℚ) (t : ℕ) : ℚ :=
  ((List.range scens.length).map (fun s =>
      objectiveTerm scheme (scens.getD s default) t (offer t) (exc s t) (dfc s t))).sum
    / scens.length

/-- The full LP expected-revenue objective `revenue(m)`: `(1/S)` times the
sum over hours of the sum over scenarios of the settlement summand. -/
def expectedRevenueObjective (scheme : Scheme) (scens : List Scenario)
    (offer : ℕ → ℚ) (exc dfc : ℕ → ℕ → ℚ) : ℚ :=
  (1 / scens.length) * ((List.range 24).map (fun t =>
      ((List.range scens.length).map (fun s =>
          objectiveTerm scheme (scens.getD s default) t (offer t) (exc s t) (dfc s t))).sum)).sum

/-- The per-hour average revenue re-derived in the extraction loop of
`solve_and_extract` (Task_1.1_1.2_1.3.py lines 148-169, likewise Task_1.py):
the Python conditional expression groups so that when the system flag is not
1 the whole first operand — including the day-ahead term — is replaced by
the surplus settlement alone. -/
def rederivedHourlyRevenue (scheme : Scheme) (scens : List Scenario) (bid : ℚ)
    (exc dfc : ℕ → ℕ → ℚ) (t : ℕ) : ℚ :=
  ((List.range scens.length).map (fun s =>
      let sc := scens.getD s default
      let p := sc.priceAt t
      match scheme with
      | .one =>
          if sc.sysAt t = 1 then p * bid + 0.85 * p * exc s t - 0.85 * p * dfc s t
          else 1.25 * p * exc s t - 1.25 * p * dfc s t
      | .two =>
          if sc.sysAt t = 1 then p * bid + 0.85 * p * exc s t - p * dfc s t
          else p * exc s t - 1.25 * p * dfc s t)).sum
    / scens.length

/-- Canonical excess part `max(wind − bid, 0)` of the imbalance, the value the
LP decomposition takes at an optimum for a fixed bid. -/
def canonExc (scens : List Scenario) (offer : ℕ → ℚ) (s t : ℕ) : ℚ :=
  max ((scens.getD s default).windAt t - offer t) 0

/-- Canonical deficit part `max(bid − wind, 0)` of the imbalance. -/
def canonDef (scens : List Scenario) (offer : ℕ → ℚ) (s t : ℕ) : ℚ :=
  max (offer t - (scens.getD s default).windAt t) 0

/-- Sum of a function that is constant on `range n`. -/
lemma sum_const_range (n : ℕ) (c : ℚ) (f : ℕ → ℚ)
    (h : ∀ t ∈ List.range n, f t = c) : ((List.range n).map f).sum = n * c := by
  rw [List.map_congr_left h]
  simp [List.map_const', List.sum_replicate, List.length_range, nsmul_eq_mul]

/-- Entry of a replicated list below its length. -/
lemma getD_replicate_lt (a d : ℚ) {n t : ℕ} (h : t < n) :
    (List.replicate n a).getD t d = a := by
  rw [List.getD_eq_getElem?_getD, List.getElem?_replicate_of_lt h]
  rfl

/-- Failing input for C1: one scenario whose system flag is 0 in every hour,
with unit day-ahead price and zero wind. -/
def scF : Scenario :=
  ⟨List.replicate 24 0, List.replicate 24 1, [], List.replicate 24 0⟩

/-- Constant bid of 100 MW in every hour. -/
def bidF : ℕ → ℚ := fun _ => 100

/-- C1: at the failing input (all-surplus scenario, price 1, wind 0, bid 100)
the Fixed-Strategy Evaluator and the LP objective agree exactly (−600 =
24 · (−25)), but the per-hour revenue re-derivation loop inside
`solve_and_extract` reports −125 instead of the hourly share −25, because its
conditional expression drops the day-ahead term `p_da * bid` whenever the
system flag is 0. -/
theorem C1_rederivation_drops_dayahead_term :
    expectedRevenueObjective .one [scF] bidF (canonExc [scF] bidF) (canonDef [scF] bidF)
        = -600 ∧
    evaluate_profit bidF [scF] .one = .ok (-600) ∧
    objectiveHourlyAvg .one [scF] bidF (canonExc [scF] bidF) (canonDef [scF] bidF) 0
        = -25 ∧
    rederivedHourlyRevenue .one [scF] (bidF 0) (canonExc [scF] bidF) (canonDef [scF] bidF) 0
        = -125 ∧
    (-125 : ℚ) ≠ -25 := by
  have hp : ∀ t, t < 24 → scF.priceAt t = 1 := fun t ht => getD_replicate_lt 1 0 ht
  have hw : ∀ t, t < 24 → scF.windAt t = 0 := fun t ht => getD_replicate_lt 0 0 ht
  have hs : ∀ t, t < 24 → scF.sysAt t = 0 := fun t ht => getD_replicate_lt 0 0 ht
  have hr1 : List.range 1 = [0] := rfl
  have hexc : ∀ t, t < 24 → canonExc [scF] bidF 0 t = 0 := by
    intro t ht
    have : ([scF].getD 0 default).windAt t = 0 := hw t ht
    simp only [canonExc, bidF, this]
    rw [max_eq_right (by norm_num)]
  have hdef : ∀ t, t < 24 → canonDef [scF] bidF 0 t = 100 := by
    intro t ht
    have : ([scF].getD 0 default).windAt t = 0 := hw t ht
    simp only [canonDef, bidF, this]
    rw [max_eq_left (by norm_num)]
    norm_num
  have hinner : ∀ t ∈ List.range 24,
      ((List.range ([scF] : List Scenario).length).map (fun s =>
          objectiveTerm .one ([scF].getD s default) t (bidF t)
            (canonExc [scF] bidF s t) (canonDef [scF] bidF s t))).sum = -25 := by
    intro t ht
    have ht' := List.mem_range.mp ht
    simp only [List.length_singleton, hr1, List.map_cons, List.map_nil,
      List.sum_cons, List.sum_nil, List.getD_cons_zero]
    simp only [objectiveTerm]
    rw [hexc t ht', hdef t ht', hp t ht', hs t ht', bidF]
    norm_num
  refine ⟨?_, ?_, ?_, ?_, by norm_num⟩
  · rw [expectedRevenueObjective, sum_const_range 24 (-25) _ hinner]
    norm_num
  · rw [evaluate_profit]
    have hlen : (([scF] : List Scenario).length = 0) = False := by simp
    rw [if_neg (by simp)]
    have : evalTotal bidF [scF] .one = -600 := by
      rw [evalTotal]
      simp only [List.map_cons, List.map_nil, List.sum_cons, List.sum_nil, add_zero]
      rw [scenarioProfit, sum_const_range 24 (-25) _ ?_]
      · norm_num
      · intro t ht
        have ht' := List.mem_range.mp ht
        rw [evalHourRevenue]
        simp only [hp t ht', hw t ht', hs t ht', bidF]
        rw [if_neg (by norm_num)]
        norm_num
    rw [this]
    norm_num
  · rw [objectiveHourlyAvg]
    have := hinner 0 (by simp)
    rw [this]
    norm_num
  · rw [rederivedHourlyRevenue]
    simp only [List.length_singleton, hr1, List.map_cons, List.map_nil,
      List.sum_cons, List.sum_nil, List.getD_cons_zero]
    rw [hs 0 (by norm_num)]
    rw [if_neg (by norm_num)]
    rw [hp 0 (by norm_num), hexc 0 (by norm_num), hdef 0 (by norm_num)]
    norm_num

/-- C2: for every scheme, scenario, hour and bid, with a binary system flag,
the per-hour revenue computed inside `evaluate_profit` equals
`price·bid + m_exc·price·max(wind−bid,0) − m_def·price·max(bid−wind,0)`
with the multiplier table of the spec. -/
theorem C2_evaluate_profit_hourly_formula (scheme : Scheme) (sc : Scenario)
    (t : ℕ) (bid : ℚ) (hfl : sc.sysAt t = 0 ∨ sc.sysAt t = 1) :
    evalHourRevenue scheme sc bid t =
      sc.priceAt t * bid
        + m_exc scheme (sc.sysAt t) * sc.priceAt t * max (sc.windAt t - bid) 0
        - m_def scheme (sc.sysAt t) * sc.priceAt t * max (bid - sc.windAt t) 0 := by
  rcases le_or_lt 0 (sc.windAt t - bid) with hle | hlt
  · have h1 : max (sc.windAt t - bid) 0 = sc.windAt t - bid := max_eq_left hle
    have h2 : max (bid - sc.windAt t) 0 = 0 := by
      apply max_eq_right; linarith
    rcases hfl with h | h <;>
      cases scheme <;>
        simp only [evalHourRevenue, m_exc, m_def, if_pos hle, h, h1, h2] <;>
          norm_num
  · have hneg : ¬ (0 ≤ sc.windAt t - bid) := by linarith
    have h1 : max (sc.windAt t - bid) 0 = 0 := by
      apply max_eq_right; linarith
    have h2 : max (bid - sc.windAt t) 0 = bid - sc.windAt t := by
      apply max_eq_left; linarith
    rcases hfl with h | h <;>
      cases scheme <;>
        simp only [evalHourRevenue, m_exc, m_def, if_neg hneg, h, h1, h2] <;>
          norm_num

/-- Witness for C2 at a concrete scenario and bid. -/
theorem C2_evaluate_profit_hourly_formula_witness :
    ((⟨List.replicate 24 10, List.replicate 24 5, [], List.replicate 24 1⟩ :
        Scenario).sysAt 0 = 0 ∨
      (⟨List.replicate 24 10, List.replicate 24 5, [], List.replicate 24 1⟩ :
        Scenario).sysAt 0 = 1) ∧
    evalHourRevenue .two
        ⟨List.replicate 24 10, List.replicate 24 5, [], List.replicate 24 1⟩ 3 0 =
      (⟨List.replicate 24 10, List.replicate 24 5, [], List.replicate 24 1⟩ :
          Scenario).priceAt 0 * 3
        + m_exc .two ((⟨List.replicate 24 10, List.replicate 24 5, [],
            List.replicate 24 1⟩ : Scenario).sysAt 0)
          * (⟨List.replicate 24 10, List.replicate 24 5, [],
              List.replicate 24 1⟩ : Scenario).priceAt 0
          * max ((⟨List.replicate 24 10, List.replicate 24 5, [],
              List.replicate 24 1⟩ : Scenario).windAt 0 - 3) 0
        - m_def .two ((⟨List.replicate 24 10, List.replicate 24 5, [],
            List.replicate 24 1⟩ : Scenario).sysAt 0)
          * (⟨List.replicate 24 10, List.replicate 24 5, [],
              List.replicate 24 1⟩ : Scenario).priceAt 0
          * max (3 - (⟨List.replicate 24 10, List.replicate 24 5, [],
              List.replicate 24 1⟩ : Scenario).windAt 0) 0 :=
  ⟨by decide,
   C2_evaluate_profit_hourly_formula .two
     ⟨List.replicate 24 10, List.replicate 24 5, [], List.replicate 24 1⟩ 0 3
     (by decide)⟩

/-!  Claim C3: the concrete certain-wind population of spec §8. -/

/-- Alternating hourly system flags 1,0,1,0,… over the 24-hour horizon. -/
def sysAlt : List ℚ := (List.range 24).map (fun t => if t % 2 = 0 then 1 else 0)

/-- The concrete test scenario: certain wind 100 MW and day-ahead price 50 in
every hour, alternating system flags. -/
def sc3 : Scenario :=
  ⟨List.replicate 24 100, List.replicate 24 50, [], sysAlt⟩

/-- Population of four identical copies of the test scenario. -/
def scens3 : List Scenario := List.replicate 4 sc3

/-- The bid vector claimed optimal by the spec: 100 MW in every hour. -/
def bid100 : ℕ → ℚ := fun _ => 100

/-- Bid 100 MW in system-deficit (even) hours and 0 in system-surplus (odd)
hours. -/
def bidAlt : ℕ → ℚ := fun t => if t % 2 = 0 then 100 else 0

/-- System flag of the test scenario at each hour below 24. -/
lemma sc3_sysAt {t : ℕ} (ht : t < 24) :
    sc3.sysAt t = if t % 2 = 0 then 1 else 0 := by
  show (sysAlt.getD t 0) = _
  rw [sysAlt, List.getD_eq_getElem?_getD, List.getElem?_map, List.getElem?_range ht]
  rfl

/-- Wind of the test scenario. -/
lemma sc3_windAt {t : ℕ} (ht : t < 24) : sc3.windAt t = 100 :=
  getD_replicate_lt 100 0 ht

/-- Price of the test scenario. -/
lemma sc3_priceAt {t : ℕ} (ht : t < 24) : sc3.priceAt t = 50 :=
  getD_replicate_lt 50 0 ht

/-- Hourly ceiling of the one-price revenue in the test scenario: 5000 in
deficit hours, 6250 in surplus hours. -/
def hourCeil (t : ℕ) : ℚ := if t % 2 = 0 then 5000 else 6250

/-- The hourly revenue ceilings over the horizon add up to 135000. -/
lemma hourCeil_sum : ((List.range 24).map hourCeil).sum = 135000 := by
  norm_num [hourCeil, List.range_succ]

/-- In the test scenario any in-range bid earns at most the hourly ceiling
under the one-price scheme. -/
lemma evalHour_le_ceil {t : ℕ} (ht : t < 24) (b : ℚ) (h0 : 0 ≤ b)
    (h1 : b ≤ 100) : evalHourRevenue .one sc3 b t ≤ hourCeil t := by
  rw [evalHourRevenue]
  simp only [sc3_sysAt ht, sc3_windAt ht, sc3_priceAt ht]
  rw [if_pos (by linarith)]
  by_cases hpar : t % 2 = 0
  · rw [if_pos hpar, hourCeil, if_pos hpar, if_pos (rfl : (1 : ℚ) = 1)]
    linarith
  · rw [if_neg hpar, hourCeil, if_neg hpar, if_neg (by norm_num : ¬ (0 : ℚ) = 1)]
    linarith

/-- The alternating bid attains the hourly ceiling in every hour. -/
lemma evalHour_bidAlt {t : ℕ} (ht : t < 24) :
    evalHourRevenue .one sc3 (bidAlt t) t = hourCeil t := by
  rw [evalHourRevenue, bidAlt, hourCeil]
  simp only [sc3_sysAt ht, sc3_windAt ht, sc3_priceAt ht]
  by_cases hpar : t % 2 = 0
  · simp only [if_pos hpar]
    rw [if_pos (by norm_num)]
    norm_num
  · simp only [if_neg hpar]
    rw [if_pos (by norm_num)]
    norm_num

/-- The full-capacity bid earns exactly 5000 in every hour. -/
lemma evalHour_bid100 {t : ℕ} (ht : t < 24) :
    evalHourRevenue .one sc3 (bid100 t) t = 5000 := by
  rw [evalHourRevenue, bid100]
  simp only [sc3_sysAt ht, sc3_windAt ht, sc3_priceAt ht]
  rw [if_pos (by norm_num)]
  by_cases hpar : t % 2 = 0
  · simp only [if_pos hpar]
    norm_num
  · simp only [if_neg hpar]
    norm_num

/-- Average of four identical copies of a scenario is that scenario's profit. -/
lemma evaluate_profit_scens3 (bid : ℕ → ℚ) :
    evaluate_profit bid scens3 .one = .ok (scenarioProfit .one sc3 bid) := by
  rw [evaluate_profit, if_neg (by norm_num [scens3])]
  rw [evalTotal, scens3, List.map_replicate, List.sum_replicate]
  norm_num

/-- C3 counterexample: in the spec's concrete population the full-capacity
bid yields expected one-price revenue 120000, but the feasible alternating
bid (100 in deficit hours, 0 in surplus hours) yields 135000, so the
full-capacity bid does not maximize expected one-price revenue over
[0,100]^24. -/
theorem C3_counterexample_bid100_not_optimal :
    evaluate_profit bidAlt scens3 .one = .ok 135000 ∧
    evaluate_profit bid100 scens3 .one = .ok 120000 ∧
    ((List.range 24).all (fun t => decide (0 ≤ bidAlt t ∧ bidAlt t ≤ 100))) = true ∧
    (120000 : ℚ) < 135000 := by
  refine ⟨?_, ?_, ?_, by norm_num⟩
  · rw [evaluate_profit_scens3, scenarioProfit]
    rw [List.map_congr_left (fun t ht => evalHour_bidAlt (List.mem_range.mp ht))]
    rw [hourCeil_sum]
  · rw [evaluate_profit_scens3, scenarioProfit]
    rw [sum_const_range 24 5000 _ (fun t ht => evalHour_bid100 (List.mem_range.mp ht))]
    norm_num
  · decide

/-- C3 amended: in the spec's concrete population the expected one-price
revenue of the full-capacity bid is 120000, but that bid is not optimal:
every bid vector in [0,100]^24 earns at most 135000, and the alternating bid
(100 in deficit-flag hours, 0 in surplus-flag hours) attains 135000. -/
theorem C3_amended_optimum_is_135000 (bid : ℕ → ℚ)
    (hb : ∀ t, t < 24 → 0 ≤ bid t ∧ bid t ≤ 100) :
    (∃ v, evaluate_profit bid scens3 .one = .ok v ∧ v ≤ 135000) ∧
    evaluate_profit bidAlt scens3 .one = .ok 135000 ∧
    evaluate_profit bid100 scens3 .one = .ok 120000 := by
  refine ⟨⟨scenarioProfit .one sc3 bid, evaluate_profit_scens3 bid, ?_⟩, ?_, ?_⟩
  · rw [scenarioProfit]
    calc ((List.range 24).map (fun t => evalHourRevenue .one sc3 (bid t) t)).sum
        ≤ ((List.range 24).map hourCeil).sum := by
          apply List.sum_le_sum
          intro t ht
          have ht' := List.mem_range.mp ht
          exact evalHour_le_ceil ht' (bid t) (hb t ht').1 (hb t ht').2
      _ = 135000 := hourCeil_sum
  · rw [evaluate_profit_scens3, scenarioProfit]
    rw [List.map_congr_left (fun t ht => evalHour_bidAlt (List.mem_range.mp ht))]
    rw [hourCeil_sum]
  · rw [evaluate_profit_scens3, scenarioProfit]
    rw [sum_const_range 24 5000 _ (fun t ht => evalHour_bid100 (List.mem_range.mp ht))]
    norm_num

/-- Witness for C3's amended theorem at the alternating bid. -/
theorem C3_amended_optimum_is_135000_witness :
    (∀ t, t < 24 → 0 ≤ bidAlt t ∧ bidAlt t ≤ 100) ∧
    ((∃ v, evaluate_profit bidAlt scens3 .one = .ok v ∧ v ≤ 135000) ∧
      evaluate_profit bidAlt scens3 .one = .ok 135000 ∧
      evaluate_profit bid100 scens3 .one = .ok 120000) :=
  ⟨by decide, C3_amended_optimum_is_135000 bidAlt (by decide)⟩

/-!  Claim C4: the CVaR model of Task_1_4.py — objective `revenue(m)`
(lines 147-169) and constraint family `auxiliary_rule` (lines 94-114). -/

/-- Modelled from the spec: the per-scenario-per-hour settlement term over
the LP variables, written with the multiplier table of §4.3. -/
def settlementVarsSpec (scheme : Scheme) (sc : Scenario) (t : ℕ)
    (offer exc dfc : ℚ) : ℚ :=
  sc.priceAt t * offer + m_exc scheme (sc.sysAt t) * sc.priceAt t * exc
    - m_def scheme (sc.sysAt t) * sc.priceAt t * dfc

/-- When the system flag is binary, the source's flag-weighted objective
summand coincides with the spec's multiplier-table settlement term. -/
lemma objectiveTerm_eq_spec (scheme : Scheme) (sc : Scenario) (t : ℕ)
    (offer exc dfc : ℚ) (h : sc.sysAt t = 0 ∨ sc.sysAt t = 1) :
    objectiveTerm scheme sc t offer exc dfc
      = settlementVarsSpec scheme sc t offer exc dfc := by
  rcases h with h | h <;> cases scheme <;>
    simp only [objectiveTerm, settlementVarsSpec, m_exc, m_def, h] <;>
      norm_num <;> ring

/-- The CVaR-weighted objective `revenue(m)` of Task_1_4.py: a convex
combination of the expected settlement revenue and the CVaR expression
built from the VaR variable and the per-scenario auxiliary variables. -/
def cvarObjective (scheme : Scheme) (beta alpha : ℚ) (scens : List Scenario)
    (offer : ℕ → ℚ) (exc dfc : ℕ → ℕ → ℚ) (vaR : ℚ) (aux : ℕ → ℚ) : ℚ :=
  (1 - beta) * ((1 / scens.length) * ((List.range 24).map (fun t =>
      ((List.range scens.length).map (fun s =>
          objectiveTerm scheme (scens.getD s default) t (offer t)
            (exc s t) (dfc s t))).sum)).sum)
    + beta * (vaR - 1 / (1 - alpha) * ((List.range scens.length).map (fun s =>
        (1 / scens.length) * aux s)).sum)

/-- The CVaR constraint `auxiliary_rule(m, s, t)` of Task_1_4.py: the rule is
indexed over scenario-hour pairs but ignores the hour, bounding the auxiliary
variable by VaR minus the full-horizon settlement sum of scenario `s`. -/
def auxiliary_rule (scheme : Scheme) (scens : List Scenario) (offer : ℕ → ℚ)
    (exc dfc : ℕ → ℕ → ℚ) (vaR : ℚ) (aux : ℕ → ℚ) (s t : ℕ) : Prop :=
  aux s ≥ vaR - ((List.range 24).map (fun u =>
      objectiveTerm scheme (scens.getD s default) u (offer u)
        (exc s u) (dfc s u))).sum

/-- A sum over `List.range` as a `Finset.range` sum. -/
lemma list_range_sum_eq (n : ℕ) (f : ℕ → ℚ) :
    ((List.range n).map f).sum = ∑ i in Finset.range n, f i := by
  induction n with
  | zero => simp
  | succ m ih =>
      rw [List.range_succ, List.map_append, List.sum_append,
        Finset.sum_range_succ, ih]
      simp

/-- Swapping the two summations over `List.range`. -/
lemma sum_comm_range (A B : ℕ) (F : ℕ → ℕ → ℚ) :
    ((List.range A).map (fun t => ((List.range B).map (fun s => F s t)).sum)).sum
      = ((List.range B).map (fun s =>
          ((List.range A).map (fun t => F s t)).sum)).sum := by
  simp only [list_range_sum_eq]
  exact Finset.sum_comm

/-- A list entry read with a default below the length is a member. -/
lemma getD_mem_of_lt (l : List Scenario) (s : ℕ) (h : s < l.length) :
    l.getD s default ∈ l := by
  rw [List.getD_eq_getElem?_getD, List.getElem?_eq_getElem h]
  exact List.getElem_mem h

/-- C4: with a binary system flag, nonempty scenario subset, `β ∈ [0,1]` and
`α < 1`, the CVaR solve's objective equals
`(1−β)·mean_s[Σ_t settlement(s,t)] + β·(VaR − (1/(1−α))·(1/S)·Σ_s aux[s])`
with the settlement term in the spec's multiplier-table form; at `β = 0` it
is the plain expected revenue; and the source's constraint family says
exactly `aux[s] ≥ VaR − profit(s)` for every scenario. -/
theorem C4_cvar_objective_and_constraint (scheme : Scheme) (beta alpha : ℚ)
    (scens : List Scenario) (offer : ℕ → ℚ) (exc dfc : ℕ → ℕ → ℚ)
    (vaR : ℚ) (aux : ℕ → ℚ) (hne : scens ≠ []) (hb0 : 0 ≤ beta)
    (hb1 : beta ≤ 1) (ha : alpha < 1)
    (hfl : ∀ sc ∈ scens, ∀ t, t < 24 → sc.sysAt t = 0 ∨ sc.sysAt t = 1) :
    cvarObjective scheme beta alpha scens offer exc dfc vaR aux
      = (1 - beta) * ((1 / scens.length) *
          ((List.range scens.length).map (fun s => ((List.range 24).map (fun t =>
              settlementVarsSpec scheme (scens.getD s default) t (offer t)
                (exc s t) (dfc s t))).sum)).sum)
        + beta * (vaR - (1 / (1 - alpha)) * ((1 / scens.length) *
            ((List.range scens.length).map aux).sum)) ∧
    (beta = 0 →
      cvarObjective scheme beta alpha scens offer exc dfc vaR aux
        = (1 / scens.length) *
            ((List.range scens.length).map (fun s => ((List.range 24).map (fun t =>
                settlementVarsSpec scheme (scens.getD s default) t (offer t)
                  (exc s t) (dfc s t))).sum)).sum) ∧
    (∀ s, s < scens.length → ∀ t,
      (auxiliary_rule scheme scens offer exc dfc vaR aux s t ↔
        aux s ≥ vaR - ((List.range 24).map (fun u =>
            settlementVarsSpec scheme (scens.getD s default) u (offer u)
              (exc s u) (dfc s u))).sum)) := by
  have hpt : ∀ s, s < scens.length → ∀ t, t < 24 →
      objectiveTerm scheme (scens.getD s default) t (offer t) (exc s t) (dfc s t)
        = settlementVarsSpec scheme (scens.getD s default) t (offer t)
            (exc s t) (dfc s t) := by
    intro s hs t ht
    exact objectiveTerm_eq_spec _ _ _ _ _ _
      (hfl (scens.getD s default) (getD_mem_of_lt scens s hs) t ht)
  have hswap : ((List.range 24).map (fun t =>
        ((List.range scens.length).map (fun s =>
            objectiveTerm scheme (scens.getD s default) t (offer t)
              (exc s t) (dfc s t))).sum)).sum
      = ((List.range scens.length).map (fun s => ((List.range 24).map (fun t =>
          settlementVarsSpec scheme (scens.getD s default) t (offer t)
            (exc s t) (dfc s t))).sum)).sum := by
    rw [sum_comm_range 24 scens.length (fun s t =>
      objectiveTerm scheme (scens.getD s default) t (offer t) (exc s t) (dfc s t))]
    refine congrArg List.sum (List.map_congr_left ?_)
    intro s hs
    refine congrArg List.sum (List.map_congr_left ?_)
    intro t ht
    exact hpt s (List.mem_range.mp hs) t (List.mem_range.mp ht)
  have haux : ((List.range scens.length).map (fun s =>
        (1 / (scens.length : ℚ)) * aux s)).sum
      = (1 / (scens.length : ℚ)) * ((List.range scens.length).map aux).sum := by
    simp only [list_range_sum_eq]
    rw [Finset.mul_sum]
  refine ⟨?_, ?_, ?_⟩
  · rw [cvarObjective, hswap, haux]
  · intro hb
    rw [cvarObjective, hswap, haux, hb]
    ring
  · intro s hs t
    unfold auxiliary_rule
    rw [List.map_congr_left (fun u hu => hpt s hs u (List.mem_range.mp hu))]

/-- Witness for C4 at a concrete one-scenario model with binary flags. -/
theorem C4_cvar_objective_and_constraint_witness :
    (([(⟨List.replicate 24 2, List.replicate 24 3, [], List.replicate 24 1⟩ :
          Scenario)] : List Scenario) ≠ [] ∧
      (0 : ℚ) ≤ 1/2 ∧ (1/2 : ℚ) ≤ 1 ∧ (9/10 : ℚ) < 1 ∧
      (∀ sc ∈ ([(⟨List.replicate 24 2, List.replicate 24 3, [],
          List.replicate 24 1⟩ : Scenario)] : List Scenario), ∀ t, t < 24 →
        sc.sysAt t = 0 ∨ sc.sysAt t = 1)) ∧
    (cvarObjective .one (1/2) (9/10)
        [⟨List.replicate 24 2, List.replicate 24 3, [], List.replicate 24 1⟩]
        (fun _ => 1) (fun _ _ => 1) (fun _ _ => 1) 5 (fun _ => 2)
      = (1 - 1/2) * ((1 / (([(⟨List.replicate 24 2, List.replicate 24 3, [],
            List.replicate 24 1⟩ : Scenario)] : List Scenario).length : ℚ)) *
          ((List.range ([(⟨List.replicate 24 2, List.replicate 24 3, [],
              List.replicate 24 1⟩ : Scenario)] : List Scenario).length).map
            (fun s => ((List.range 24).map (fun t =>
              settlementVarsSpec .one
                (([(⟨List.replicate 24 2, List.replicate 24 3, [],
                    List.replicate 24 1⟩ : Scenario)] : List Scenario).getD s default)
                t 1 1 1)).sum)).sum)
        + (1/2) * (5 - (1 / (1 - 9/10)) *
            ((1 / (([(⟨List.replicate 24 2, List.replicate 24 3, [],
                List.replicate 24 1⟩ : Scenario)] : List Scenario).length : ℚ)) *
              ((List.range ([(⟨List.replicate 24 2, List.replicate 24 3, [],
                  List.replicate 24 1⟩ : Scenario)] : List Scenario).length).map
                (fun _ => (2 : ℚ))).sum)) ∧
      ((1/2 : ℚ) = 0 →
        cvarObjective .one (1/2) (9/10)
            [⟨List.replicate 24 2, List.replicate 24 3, [], List.replicate 24 1⟩]
            (fun _ => 1) (fun _ _ => 1) (fun _ _ => 1) 5 (fun _ => 2)
          = (1 / (([(⟨List.replicate 24 2, List.replicate 24 3, [],
                List.replicate 24 1⟩ : Scenario)] : List Scenario).length : ℚ)) *
              ((List.range ([(⟨List.replicate 24 2, List.replicate 24 3, [],
                  List.replicate 24 1⟩ : Scenario)] : List Scenario).length).map
                (fun s => ((List.range 24).map (fun t =>
                  settlementVarsSpec .one
                    (([(⟨List.replicate 24 2, List.replicate 24 3, [],
                        List.replicate 24 1⟩ : Scenario)] : List Scenario).getD
                      s default) t 1 1 1)).sum)).sum) ∧
      (∀ s, s < ([(⟨List.replicate 24 2, List.replicate 24 3, [],
          List.replicate 24 1⟩ : Scenario)] : List Scenario).length → ∀ t,
        (auxiliary_rule .one
            [⟨List.replicate 24 2, List.replicate 24 3, [], List.replicate 24 1⟩]
            (fun _ => 1) (fun _ _ => 1) (fun _ _ => 1) 5 (fun _ => 2) s t ↔
          (2 : ℚ) ≥ 5 - ((List.range 24).map (fun u =>
              settlementVarsSpec .one
                (([(⟨List.replicate 24 2, List.replicate 24 3, [],
                    List.replicate 24 1⟩ : Scenario)] : List Scenario).getD
                  s default) u 1 1 1)).sum))) :=
  ⟨⟨by simp, by norm_num, by norm_num, by norm_num, by decide⟩,
   C4_cvar_objective_and_constraint .one (1/2) (9/10)
     [⟨List.replicate 24 2, List.replicate 24 3, [], List.replicate 24 1⟩]
     (fun _ => 1) (fun _ _ => 1) (fun _ _ => 1) 5 (fun _ => 2)
     (by simp) (by norm_num) (by norm_num) (by norm_num) (by decide)⟩

/-!  Scenario Generator: `create_combined_scenarios` in scenarios.py
(lines 45-80).  The only failure the Python code can raise is an IndexError
while building the balancing prices (`price_da[t]` / `power_list[t]` for
`t in range(24)`), embedded here as `none`. -/

/-- One balancing-price entry: `price_da[t] * 0.85` if `power_list[t] == 1`
else `price_da[t] * 1.25`; `none` models the IndexError on an out-of-range
access. -/
def balAt (price_da power : List ℚ) (t : ℕ) : Option ℚ :=
  match power[t]?, price_da[t]? with
  | some fl, some p => some (if fl = 1 then p * 0.85 else p * 1.25)
  | _, _ => none

/-- The list comprehension over a given index list. -/
def balancingPricesAux (price_da power : List ℚ) : List ℕ → Option (List ℚ)
  | [] => some []
  | t :: ts =>
    match balAt price_da power t, balancingPricesAux price_da power ts with
    | some v, some vs => some (v :: vs)
    | _, _ => none

/-- The `balancing_prices` comprehension over `range(24)`. -/
def balancingPrices (price_da power : List ℚ) : Option (List ℚ) :=
  balancingPricesAux price_da power (List.range 24)

/-- The scenario record built for one (price, wind, power) combination:
wind scaled by the capacity factor, the price and power trajectories as
given, and the derived balancing prices. -/
def mkScen (price_da wind : List ℚ) (cap : ℚ) (power bal : List ℚ) : Scenario :=
  ⟨wind.map (fun w => w * cap), price_da, bal, power⟩

/-- Innermost loop of `create_combined_scenarios`: one record per power
trajectory for a fixed price and wind trajectory. -/
def combineInner (price_da wind : List ℚ) (cap : ℚ) :
    List (List ℚ) → Option (List Scenario)
  | [] => some []
  | power :: rest =>
    match balancingPrices price_da power, combineInner price_da wind cap rest with
    | some bal, some tail => some (mkScen price_da wind cap power bal :: tail)
    | _, _ => none

/-- Middle loop: concatenation of the inner blocks over the wind
trajectories for a fixed price trajectory. -/
def combineMid (price_da : List ℚ) (cap : ℚ) (powers : List (List ℚ)) :
    List (List ℚ) → Option (List Scenario)
  | [] => some []
  | wind :: rest =>
    match combineInner price_da wind cap powers, combineMid price_da cap powers rest with
    | some blk, some tail => some (blk ++ tail)
    | _, _ => none

/-- The Scenario Generator `create_combined_scenarios`: triple nested loop
over price, wind and power trajectories; the Python default capacity factor
is 500. -/
def create_combined_scenarios (price_data wind_data powers : List (List ℚ))
    (cap : ℚ) : Option (List Scenario) :=
  match price_data with
  | [] => some []
  | price_da :: rest =>
    match combineMid price_da cap powers wind_data,
        create_combined_scenarios rest wind_data powers cap with
    | some blk, some tail => some (blk ++ tail)
    | _, _ => none

/-- The balancing-price list in closed form, defined on well-shaped input. -/
def balList (price_da power : List ℚ) : List ℚ :=
  (List.range 24).map (fun t =>
    if power.getD t 0 = 1 then price_da.getD t 0 * 0.85 else price_da.getD t 0 * 1.25)

/-- On index lists that stay in range, the balancing-price comprehension
succeeds and produces the pointwise closed form. -/
lemma balancingPricesAux_ok (price_da power : List ℚ) (ts : List ℕ)
    (h : ∀ t ∈ ts, t < price_da.length ∧ t < power.length) :
    balancingPricesAux price_da power ts
      = some (ts.map (fun t =>
          if power.getD t 0 = 1 then price_da.getD t 0 * 0.85
          else price_da.getD t 0 * 1.25)) := by
  induction ts with
  | nil => rfl
  | cons t ts ih =>
      have ht := h t (List.mem_cons_self t ts)
      have hrest := ih (fun u hu => h u (List.mem_cons_of_mem t hu))
      rw [balancingPricesAux, hrest, balAt,
        List.getElem?_eq_getElem ht.2, List.getElem?_eq_getElem ht.1]
      simp only [List.map_cons]
      rw [List.getD_eq_getElem?_getD, List.getElem?_eq_getElem ht.2,
        List.getD_eq_getElem?_getD, List.getElem?_eq_getElem ht.1]
      rfl

/-- With 24-entry price and power series the balancing prices succeed. -/
lemma balancingPrices_ok (price_da power : List ℚ) (hp : price_da.length = 24)
    (hk : power.length = 24) :
    balancingPrices price_da power = some (balList price_da power) := by
  rw [balancingPrices, balancingPricesAux_ok]
  · rfl
  · intro t ht
    have := List.mem_range.mp ht
    omega

/-- Inner-loop closed form under well-shaped price and power series. -/
lemma combineInner_ok (price_da wind : List ℚ) (cap : ℚ)
    (powers : List (List ℚ)) (hp : price_da.length = 24)
    (hk : ∀ q ∈ powers, q.length = 24) :
    combineInner price_da wind cap powers
      = some (powers.map (fun power =>
          mkScen price_da wind cap power (balList price_da power))) := by
  induction powers with
  | nil => rfl
  | cons power rest ih =>
      rw [combineInner,
        balancingPrices_ok price_da power hp (hk power (List.mem_cons_self power rest)),
        ih (fun q hq => hk q (List.mem_cons_of_mem power hq))]
      rfl

/-- Middle-loop closed form. -/
lemma combineMid_ok (price_da : List ℚ) (cap : ℚ) (powers winds : List (List ℚ))
    (hp : price_da.length = 24) (hk : ∀ q ∈ powers, q.length = 24) :
    combineMid price_da cap powers winds
      = some ((winds.map (fun wind => powers.map (fun power =>
          mkScen price_da wind cap power (balList price_da power)))).flatten) := by
  induction winds with
  | nil => rfl
  | cons wind rest ih =>
      rw [combineMid, combineInner_ok price_da wind cap powers hp hk, ih]
      rfl

/-- Outer-loop closed form: the generator succeeds on well-shaped price and
power collections, producing the flattened triple product. -/
lemma create_combined_scenarios_ok (prices winds powers : List (List ℚ))
    (cap : ℚ) (hp : ∀ p ∈ prices, p.length = 24)
    (hk : ∀ q ∈ powers, q.length = 24) :
    create_combined_scenarios prices winds powers cap
      = some ((prices.map (fun price_da => (winds.map (fun wind =>
          powers.map (fun power =>
            mkScen price_da wind cap power (balList price_da power)))).flatten)).flatten) := by
  induction prices with
  | nil => rfl
  | cons price rest ih =>
      rw [create_combined_scenarios,
        combineMid_ok price cap powers winds (hp price (List.mem_cons_self price rest)) hk,
        ih (fun p hpm => hp p (List.mem_cons_of_mem price hpm))]
      rfl

/-- Length of a flattening whose blocks all have length `m`. -/
lemma flatten_length_const {α : Type} {L : List (List α)} {m : ℕ}
    (h : ∀ b ∈ L, b.length = m) : L.flatten.length = L.length * m := by
  induction L with
  | nil => simp
  | cons b bs ih =>
      rw [List.flatten_cons, List.length_append, List.length_cons,
        h b (List.mem_cons_self b bs),
        ih (fun x hx => h x (List.mem_cons_of_mem b hx))]
      ring

/-- Block-indexed lookup in a flattening of equal-length blocks. -/
lemma flatten_getElem?_const {α : Type} [Inhabited (List α)] {L : List (List α)}
    {m : ℕ} (h : ∀ b ∈ L, b.length = m) :
    ∀ {i r : ℕ}, i < L.length → r < m →
      L.flatten[i * m + r]? = (L.getD i [])[r]? := by
  induction L with
  | nil => intro i r hi _; simp at hi
  | cons b bs ih =>
      intro i r hi hr
      match i with
      | 0 =>
          have hb : b.length = m := h b (List.mem_cons_self b bs)
          rw [List.flatten_cons]
          rw [List.getElem?_append_left (by omega)]
          have h0 : 0 * m + r = r := by omega
          rw [h0]
          rfl
      | i + 1 =>
          have hb : b.length = m := h b (List.mem_cons_self b bs)
          rw [List.flatten_cons]
          have hidx : (i + 1) * m + r = b.length + (i * m + r) := by
            rw [hb]; ring
          rw [hidx, List.getElem?_append_right (by omega)]
          have : b.length + (i * m + r) - b.length = i * m + r := by omega
          rw [this]
          exact ih (fun x hx => h x (List.mem_cons_of_mem b hx))
            (by simpa using hi) hr

/-- Reading a mapped list with a default below the length. -/
lemma getD_map_list {α β : Type} (f : α → List β) (l : List α) (i : ℕ) (d : α)
    (hi : i < l.length) : (l.map f).getD i [] = f (l.getD i d) := by
  rw [List.getD_eq_getElem?_getD, List.getElem?_map, List.getElem?_eq_getElem hi,
    List.getD_eq_getElem?_getD, List.getElem?_eq_getElem hi]
  rfl

/-- C5: on well-shaped price and power collections the Scenario Generator
succeeds and yields exactly `P·W·K` records; the record of combination
`(i,j,k)` sits at index `i·(W·K) + j·K + k` and carries price trajectory
`i`, system trajectory `k`, and wind trajectory `j` scaled by the capacity
factor. -/
theorem C5_generator_cartesian_product (prices winds powers : List (List ℚ))
    (cap : ℚ) (hp : ∀ p ∈ prices, p.length = 24)
    (hk : ∀ q ∈ powers, q.length = 24) :
    ∃ res, create_combined_scenarios prices winds powers cap = some res ∧
      res.length = prices.length * winds.length * powers.length ∧
      ∀ i j k, i < prices.length → j < winds.length → k < powers.length →
        ∃ sc, res[i * (winds.length * powers.length) + j * powers.length + k]?
            = some sc ∧
          sc.price_da = prices.getD i [] ∧
          sc.system = powers.getD k [] ∧
          sc.wind = (winds.getD j []).map (fun w => w * cap) := by
  refine ⟨_, create_combined_scenarios_ok prices winds powers cap hp hk, ?_, ?_⟩
  · have hinner : ∀ p : List ℚ, ∀ b ∈ (winds.map (fun wind =>
        powers.map (fun power => mkScen p wind cap power (balList p power)))),
        b.length = powers.length := by
      intro p b hb
      rcases List.mem_map.mp hb with ⟨w, _, rfl⟩
      exact List.length_map _ _
    have hblk : ∀ b ∈ prices.map (fun price_da => (winds.map (fun wind =>
        powers.map (fun power =>
          mkScen price_da wind cap power (balList price_da power)))).flatten),
        b.length = winds.length * powers.length := by
      intro b hb
      rcases List.mem_map.mp hb with ⟨p, _, rfl⟩
      rw [flatten_length_const (hinner p), List.length_map]
    rw [flatten_length_const hblk, List.length_map, mul_assoc]
  · intro i j k hi hj hk'
    have hinner : ∀ p : List ℚ, ∀ b ∈ (winds.map (fun wind =>
        powers.map (fun power => mkScen p wind cap power (balList p power)))),
        b.length = powers.length := by
      intro p b hb
      rcases List.mem_map.mp hb with ⟨w, _, rfl⟩
      exact List.length_map _ _
    have hblk : ∀ b ∈ prices.map (fun price_da => (winds.map (fun wind =>
        powers.map (fun power =>
          mkScen price_da wind cap power (balList price_da power)))).flatten),
        b.length = winds.length * powers.length := by
      intro b hb
      rcases List.mem_map.mp hb with ⟨p, _, rfl⟩
      rw [flatten_length_const (hinner p), List.length_map]
    have hr : j * powers.length + k < winds.length * powers.length := by
      have h1 : j * powers.length + k < (j + 1) * powers.length := by
        rw [add_mul, one_mul]
        omega
      have h2 : (j + 1) * powers.length ≤ winds.length * powers.length :=
        Nat.mul_le_mul_right _ (by omega)
      omega
    have hstep1 := flatten_getElem?_const hblk
      (i := i) (r := j * powers.length + k) (by rw [List.length_map]; exact hi) hr
    have hstep2 := flatten_getElem?_const (hinner (prices.getD i []))
      (i := j) (r := k) (by rw [List.length_map]; exact hj) hk'
    refine ⟨mkScen (prices.getD i []) (winds.getD j []) cap (powers.getD k [])
      (balList (prices.getD i []) (powers.getD k [])), ?_, rfl, rfl, rfl⟩
    rw [show i * (winds.length * powers.length) + j * powers.length + k
        = i * (winds.length * powers.length) + (j * powers.length + k) from by ring]
    rw [hstep1, getD_map_list _ prices i [] hi, hstep2,
      getD_map_list _ winds j [] hj, List.getElem?_map,
      List.getElem?_eq_getElem hk']
    have hq : powers.getD k [] = powers[k] := by
      rw [List.getD_eq_getElem?_getD, List.getElem?_eq_getElem hk']
      rfl
    rw [hq]
    rfl

/-- Witness for C5 on singleton collections. -/
theorem C5_generator_cartesian_product_witness :
    ((∀ p ∈ ([List.replicate 24 (3 : ℚ)] : List (List ℚ)), p.length = 24) ∧
      (∀ q ∈ ([List.replicate 24 (0 : ℚ)] : List (List ℚ)), q.length = 24)) ∧
    (∃ res, create_combined_scenarios [List.replicate 24 (3 : ℚ)]
          [List.replicate 24 (2 : ℚ)] [List.replicate 24 (0 : ℚ)] 500 = some res ∧
      res.length = ([List.replicate 24 (3 : ℚ)] : List (List ℚ)).length *
          ([List.replicate 24 (2 : ℚ)] : List (List ℚ)).length *
          ([List.replicate 24 (0 : ℚ)] : List (List ℚ)).length ∧
      ∀ i j k, i < ([List.replicate 24 (3 : ℚ)] : List (List ℚ)).length →
          j < ([List.replicate 24 (2 : ℚ)] : List (List ℚ)).length →
          k < ([List.replicate 24 (0 : ℚ)] : List (List ℚ)).length →
        ∃ sc, res[i * (([List.replicate 24 (2 : ℚ)] : List (List ℚ)).length *
              ([List.replicate 24 (0 : ℚ)] : List (List ℚ)).length) +
              j * ([List.replicate 24 (0 : ℚ)] : List (List ℚ)).length + k]?
            = some sc ∧
          sc.price_da = ([List.replicate 24 (3 : ℚ)] : List (List ℚ)).getD i [] ∧
          sc.system = ([List.replicate 24 (0 : ℚ)] : List (List ℚ)).getD k [] ∧
          sc.wind = (([List.replicate 24 (2 : ℚ)] : List (List ℚ)).getD j []).map
            (fun w => w * 500)) :=
  ⟨⟨by decide, by decide⟩,
   C5_generator_cartesian_product [List.replicate 24 3] [List.replicate 24 2]
     [List.replicate 24 0] 500 (by decide) (by decide)⟩

/-- C6 counterexample: the generator does not fail on an empty price
collection (it returns an empty scenario list), nor on a wind series whose
length is not 24 (it returns a normal record) — the claimed `DataShapeError`
does not exist in the code. -/
theorem C6_counterexample_no_datashape_failure :
    create_combined_scenarios [] [[(1 : ℚ)]] [[(1 : ℚ)]] 500 = some [] ∧
    create_combined_scenarios [List.replicate 24 (1 : ℚ)] [[(1 : ℚ), 2, 3]]
        [List.replicate 24 (1 : ℚ)] 500
      = some [mkScen (List.replicate 24 1) [1, 2, 3] 500 (List.replicate 24 1)
          (balList (List.replicate 24 1) (List.replicate 24 1))] := by
  constructor
  · rfl
  · rw [create_combined_scenarios_ok _ _ _ _ (by decide) (by decide)]
    rfl

/-- C6 amended: the generator performs no shape validation.  Empty price or
wind collections yield `some []` (no error); a wind series of length ≠ 24 is
accepted and passed through scaled; the only failure is the index error
(`none`) raised while building balancing prices when a price (or system)
series shorter than 24 is reached. -/
theorem C6_amended_generator_never_validates :
    (∀ (wd pw : List (List ℚ)) (cap : ℚ),
      create_combined_scenarios [] wd pw cap = some []) ∧
    (∀ (pd pw : List (List ℚ)) (cap : ℚ),
      create_combined_scenarios pd [] pw cap = some []) ∧
    create_combined_scenarios [List.replicate 24 (1 : ℚ)] [[(1 : ℚ), 2]]
        [List.replicate 24 (1 : ℚ)] 500
      = some [mkScen (List.replicate 24 1) [1, 2] 500 (List.replicate 24 1)
          (balList (List.replicate 24 1) (List.replicate 24 1))] ∧
    create_combined_scenarios [[(1 : ℚ)]] [[(1 : ℚ)]] [List.replicate 24 (1 : ℚ)] 500
      = none := by
  refine ⟨fun wd pw cap => rfl, ?_, ?_, ?_⟩
  · intro pd pw cap
    induction pd with
    | nil => rfl
    | cons p rest ih =>
        rw [create_combined_scenarios, ih]
        rfl
  · rw [create_combined_scenarios_ok _ _ _ _ (by decide) (by decide)]
    rfl
  · rfl

/-- C10: every record produced by the generator (on well-shaped price and
system collections) carries balancing prices satisfying
`price_bal[t] = 0.85·price_da[t]` when `system[t] = 1` and
`price_bal[t] = 1.25·price_da[t]` when `system[t] = 0`. -/
theorem C10_price_bal_from_flag (prices winds powers : List (List ℚ))
    (cap : ℚ) (res : List Scenario) (hp : ∀ p ∈ prices, p.length = 24)
    (hk : ∀ q ∈ powers, q.length = 24)
    (hres : create_combined_scenarios prices winds powers cap = some res) :
    ∀ sc ∈ res, ∀ t, t < 24 →
      (sc.sysAt t = 1 → sc.price_bal.getD t 0 = 0.85 * sc.priceAt t) ∧
      (sc.sysAt t = 0 → sc.price_bal.getD t 0 = 1.25 * sc.priceAt t) := by
  rw [create_combined_scenarios_ok prices winds powers cap hp hk] at hres
  injection hres with hres
  intro sc hsc t ht
  rw [← hres] at hsc
  rcases List.mem_flatten.mp hsc with ⟨blk, hblk, hscblk⟩
  rcases List.mem_map.mp hblk with ⟨p, _, rfl⟩
  rcases List.mem_flatten.mp hscblk with ⟨blk2, hblk2, hsc2⟩
  rcases List.mem_map.mp hblk2 with ⟨w, _, rfl⟩
  rcases List.mem_map.mp hsc2 with ⟨q, _, rfl⟩
  have hbal : (balList p q).getD t 0
      = if q.getD t 0 = 1 then p.getD t 0 * 0.85 else p.getD t 0 * 1.25 := by
    rw [balList, List.getD_eq_getElem?_getD, List.getElem?_map,
      List.getElem?_range ht]
    rfl
  constructor
  · intro hsys
    have hq : q.getD t 0 = 1 := hsys
    show (balList p q).getD t 0 = 0.85 * p.getD t 0
    rw [hbal, if_pos hq]
    ring
  · intro hsys
    have hq : q.getD t 0 = 0 := hsys
    show (balList p q).getD t 0 = 1.25 * p.getD t 0
    rw [hbal, if_neg (by rw [hq]; norm_num)]
    ring

/-- Witness for C10 on a singleton generator run. -/
theorem C10_price_bal_from_flag_witness :
    ((∀ p ∈ ([List.replicate 24 (2 : ℚ)] : List (List ℚ)), p.length = 24) ∧
      (∀ q ∈ ([List.replicate 24 (1 : ℚ)] : List (List ℚ)), q.length = 24) ∧
      create_combined_scenarios [List.replicate 24 (2 : ℚ)]
          [List.replicate 24 (1 : ℚ)] [List.replicate 24 (1 : ℚ)] 500
        = some [mkScen (List.replicate 24 2) (List.replicate 24 1) 500
            (List.replicate 24 1) (balList (List.replicate 24 2) (List.replicate 24 1))]) ∧
    (∀ sc ∈ [mkScen (List.replicate 24 (2 : ℚ)) (List.replicate 24 1) 500
        (List.replicate 24 1) (balList (List.replicate 24 2) (List.replicate 24 1))],
      ∀ t, t < 24 →
        (sc.sysAt t = 1 → sc.price_bal.getD t 0 = 0.85 * sc.priceAt t) ∧
        (sc.sysAt t = 0 → sc.price_bal.getD t 0 = 1.25 * sc.priceAt t)) :=
  ⟨⟨by decide, by decide,
    by rw [create_combined_scenarios_ok _ _ _ _ (by decide) (by decide)]; rfl⟩,
   C10_price_bal_from_flag [List.replicate 24 2] [List.replicate 24 1]
     [List.replicate 24 1] 500 _ (by decide) (by decide)
     (by rw [create_combined_scenarios_ok _ _ _ _ (by decide) (by decide)]; rfl)⟩

/-!  Solve Orchestrator: the post-solve control flow of `solve_and_extract`
in Task_1.1_1.2_1.3.py (lines 134-177) and in Task_1.py (lines 75-118). -/

/-- The solver's termination report as tested by the Python code:
`result.solver.status == ok` and `termination_condition == optimal`. -/
structure SolveResult where
  statusOk : Bool
  termOptimal : Bool
deriving DecidableEq

/-- Outcome of the Task_1.1_1.2_1.3.py orchestrator.  The `solveFailure`
constructor is modelled from the spec (§4.4 demands a SolveFailure carrying
the solver's status); no code path produces it. -/
inductive ExtractOutcome
  | returned (offers : List ℚ) (profit : ℚ)
  | table (rows : List (ℕ × ℚ × ℚ))
  | solveFailure (statusOk termOptimal : Bool)
  | pythonError (e : PyError)
deriving DecidableEq

/-- Post-solve control flow of `solve_and_extract` in Task_1.1_1.2_1.3.py:
only on ok-and-optimal are the offers and the objective read (returned
directly under `return_only`, otherwise through the hourly table built with
the re-derived revenue).  On any other termination nothing was assigned to
`offer_quantities`, so the extraction loop raises UnboundLocalError before
reading any model variable. -/
def task113_solve_and_extract (res : SolveResult) (offerVal : ℕ → ℚ)
    (objVal : ℚ) (excVal dfcVal : ℕ → ℕ → ℚ) (scens : List Scenario)
    (scheme : Scheme) (return_only : Bool) : ExtractOutcome :=
  if res.statusOk = true ∧ res.termOptimal = true then
    if return_only then .returned ((List.range 24).map offerVal) objVal
    else .table ((List.range 24).map (fun t =>
      (t, offerVal t,
        rederivedHourlyRevenue scheme scens (offerVal t) excVal dfcVal t)))
  else .pythonError .unboundLocalError

/-- Post-solve control flow of `solve_and_extract` in Task_1.py: whatever
the termination status (`res` is only used for printing), the extraction
loop runs, reading `offer_quantity` once per hour and `delta_exc`,
`delta_def` once per hour and scenario; the second component counts those
model-variable reads. -/
def task1_solve_and_extract (res : SolveResult) (offerVal : ℕ → ℚ)
    (excVal dfcVal : ℕ → ℕ → ℚ) (scens : List Scenario) (scheme : Scheme) :
    List (ℕ × ℚ × ℚ) × ℕ :=
  (((List.range 24).map (fun t =>
      (t, offerVal t,
        rederivedHourlyRevenue scheme scens (offerVal t) excVal dfcVal t))),
   24 * (1 + 2 * scens.length))

/-- C7 counterexample: at a non-optimal solver result the
Task_1.1_1.2_1.3.py orchestrator raises UnboundLocalError — not the claimed
SolveFailure — and the Task_1.py orchestrator performs a positive number of
model-variable reads instead of refusing to read. -/
theorem C7_counterexample_no_solvefailure :
    task113_solve_and_extract ⟨false, false⟩ (fun _ => 0) 0 (fun _ _ => 0)
        (fun _ _ => 0) [] .one true = .pythonError .unboundLocalError ∧
    (ExtractOutcome.pythonError .unboundLocalError
      ≠ .solveFailure false false) ∧
    0 < (task1_solve_and_extract ⟨false, false⟩ (fun _ => 0) (fun _ _ => 0)
        (fun _ _ => 0) [] .one).2 := by
  refine ⟨rfl, by decide, by decide⟩

/-- C7 amended: on every non-optimal termination the Task_1.1_1.2_1.3.py
orchestrator raises UnboundLocalError (never a SolveFailure carrying the
status), while the Task_1.py orchestrator does not fail at all and still
reads model-variable values in its extraction loop. -/
theorem C7_amended_unbound_local_and_reads (res : SolveResult)
    (offerVal : ℕ → ℚ) (objVal : ℚ) (excVal dfcVal : ℕ → ℕ → ℚ)
    (scens : List Scenario) (scheme : Scheme) (ro : Bool)
    (h : ¬ (res.statusOk = true ∧ res.termOptimal = true)) :
    task113_solve_and_extract res offerVal objVal excVal dfcVal scens scheme ro
      = .pythonError .unboundLocalError ∧
    (∀ a b, task113_solve_and_extract res offerVal objVal excVal dfcVal
        scens scheme ro ≠ .solveFailure a b) ∧
    0 < (task1_solve_and_extract res offerVal excVal dfcVal scens scheme).2 := by
  refine ⟨?_, ?_, ?_⟩
  · rw [task113_solve_and_extract, if_neg h]
  · intro a b
    rw [task113_solve_and_extract, if_neg h]
    intro hc
    cases hc
  · show 0 < 24 * (1 + 2 * scens.length)
    positivity

/-- Witness for C7 at a concrete aborted solve. -/
theorem C7_amended_unbound_local_and_reads_witness :
    (¬ ((⟨true, false⟩ : SolveResult).statusOk = true ∧
        (⟨true, false⟩ : SolveResult).termOptimal = true)) ∧
    (task113_solve_and_extract ⟨true, false⟩ (fun _ => 1) 7 (fun _ _ => 0)
        (fun _ _ => 0) [] .two false = .pythonError .unboundLocalError ∧
      (∀ a b, task113_solve_and_extract ⟨true, false⟩ (fun _ => 1) 7
          (fun _ _ => 0) (fun _ _ => 0) [] .two false ≠ .solveFailure a b) ∧
      0 < (task1_solve_and_extract ⟨true, false⟩ (fun _ => 1) (fun _ _ => 0)
          (fun _ _ => 0) [] .two).2) :=
  ⟨by decide,
   C7_amended_unbound_local_and_reads ⟨true, false⟩ (fun _ => 1) 7
     (fun _ _ => 0) (fun _ _ => 0) [] .two false (by decide)⟩

/-!  Generalization Evaluator: `run_cross_validation_for_sizes` in
Task_1.1_1.2_1.3.py (lines 281-353). -/

/-- Summary record for one in-sample size; `none` stands for the NaN that
numpy's mean of an empty list yields. -/
structure CVRecord where
  size : ℕ
  avgIn : Option ℚ
  avgOut : Option ℚ
  gap : Option ℚ
deriving DecidableEq

/-- numpy mean: NaN (`none`) on an empty list, otherwise the average. -/
def npMean (xs : List ℚ) : Option ℚ :=
  if xs.length = 0 then none else some (xs.sum / xs.length)

/-- The folds: slices `[i*f : (i+1)*f]` of the shuffled copy, one per fold
index below `k`. -/
def foldsOf (shuffled : List Scenario) (f k : ℕ) : List (List Scenario) :=
  (List.range k).map (fun i => (shuffled.drop (i * f)).take f)

/-- The out-of-sample set of fold `i`: the comprehension over the enumerated
folds keeping every fold with index other than `i`, concatenated. -/
def outSampleOf (folds : List (List Scenario)) (i : ℕ) : List Scenario :=
  ((folds.enum.filter (fun p => decide (p.1 ≠ i))).map (fun p => p.2)).flatten

/-- In-sample profit of fold `i`: the objective value reported by the solve
on that fold (the training oracle's second component). -/
def inProfitAt (scheme : Scheme) (train : Scheme → List Scenario → (ℕ → ℚ) × ℚ)
    (folds : List (List Scenario)) (i : ℕ) : ℚ :=
  (train scheme (folds.getD i [])).2

/-- Out-of-sample profit of fold `i`: the Fixed-Strategy Evaluator's average
of the trained bid over the other folds. -/
def outProfitAt (scheme : Scheme) (train : Scheme → List Scenario → (ℕ → ℚ) × ℚ)
    (folds : List (List Scenario)) (i : ℕ) : ℚ :=
  evalTotal (train scheme (folds.getD i [])).1 (outSampleOf folds i) scheme
    / (outSampleOf folds i).length

/-- The cross-validation loop over fold indices: train on fold `i`, evaluate
the trained bid on the union of the other folds; an empty out-sample makes
`evaluate_profit` raise ZeroDivisionError, aborting the whole loop. -/
def cvLoop (scheme : Scheme) (train : Scheme → List Scenario → (ℕ → ℚ) × ℚ)
    (folds : List (List Scenario)) : List ℕ → Except PyError (List ℚ × List ℚ)
  | [] => .ok ([], [])
  | i :: rest =>
    match evaluate_profit (train scheme (folds.getD i [])).1
        (outSampleOf folds i) scheme with
    | .error e => .error e
    | .ok outP =>
      match cvLoop scheme train folds rest with
      | .error e => .error e
      | .ok (ins, outs) =>
          .ok ((train scheme (folds.getD i [])).2 :: ins, outP :: outs)

/-- One in-sample size: integer fold count `|population| / f` (a zero size
divides by zero in Python), deterministic shuffle of a copy, slicing into
folds, the loop, then the numpy averages and their difference. -/
def runOneSize (population : List Scenario) (scheme : Scheme)
    (shuffle : List Scenario → List Scenario)
    (train : Scheme → List Scenario → (ℕ → ℚ) × ℚ) (f : ℕ) :
    Except PyError CVRecord :=
  if f = 0 then .error .zeroDivisionError
  else
    match cvLoop scheme train (foldsOf (shuffle population) f (population.length / f))
        (List.range (population.length / f)) with
    | .error e => .error e
    | .ok (ins, outs) =>
        .ok ⟨f, npMean ins, npMean outs,
          match npMean ins, npMean outs with
          | some a, some b => some (a - b)
          | _, _ => none⟩

/-- `run_cross_validation_for_sizes`: one summary record per requested
in-sample size; a Python exception in any size aborts the whole call. -/
def run_cross_validation_for_sizes (population : List Scenario)
    (sizes : List ℕ) (scheme : Scheme)
    (shuffle : List Scenario → List Scenario)
    (train : Scheme → List Scenario → (ℕ → ℚ) × ℚ) :
    Except PyError (List CVRecord) :=
  match sizes with
  | [] => .ok []
  | f :: rest =>
    match runOneSize population scheme shuffle train f with
    | .error e => .error e
    | .ok r =>
      match run_cross_validation_for_sizes population rest scheme shuffle train with
      | .error e => .error e
      | .ok rs => .ok (r :: rs)

/-- A placeholder scenario for concrete cross-validation runs. -/
def dummyScen : Scenario :=
  ⟨List.replicate 24 0, List.replicate 24 0, [], List.replicate 24 0⟩

/-- C8 counterexample: with a population of 2 scenarios and fold size 3 the
evaluator neither raises nor solves — it returns a summary record whose
averages are NaN, computed from zero folds. -/
theorem C8_counterexample_oversized_fold_returns_nan :
    run_cross_validation_for_sizes [dummyScen, dummyScen] [3] .one id
        (fun _ _ => (fun _ => 0, 0))
      = .ok [⟨3, none, none, none⟩] := rfl

/-- C8 amended: for every fold size strictly larger than the population the
fold count is zero, no training call is made (the record is the same for
every training oracle), and the evaluator returns — without any error — a
summary record whose averages and gap are NaN. -/
theorem C8_amended_oversized_fold_nan_record (population : List Scenario)
    (scheme : Scheme) (shuffle : List Scenario → List Scenario)
    (train : Scheme → List Scenario → (ℕ → ℚ) × ℚ) (f : ℕ)
    (hf : 0 < f) (hbig : population.length < f) :
    run_cross_validation_for_sizes population [f] scheme shuffle train
      = .ok [⟨f, none, none, none⟩] := by
  have hk : population.length / f = 0 := Nat.div_eq_of_lt hbig
  rw [run_cross_validation_for_sizes, runOneSize, if_neg (by omega), hk]
  rfl

/-- Witness for C8 with fold size 3 on a 2-scenario population. -/
theorem C8_amended_oversized_fold_nan_record_witness :
    (0 < 3 ∧ ([dummyScen, dummyScen] : List Scenario).length < 3) ∧
    run_cross_validation_for_sizes [dummyScen, dummyScen] [3] .two id
        (fun _ _ => (fun _ => 5, 1))
      = .ok [⟨3, none, none, none⟩] :=
  ⟨⟨by decide, by decide⟩,
   C8_amended_oversized_fold_nan_record [dummyScen, dummyScen] .two id
     (fun _ _ => (fun _ => 5, 1)) 3 (by decide) (by decide)⟩

/-- C9 counterexample: with a 2-scenario population and fold size 2 the fold
count is 1, the single fold's out-sample is empty, and the whole evaluation
aborts with ZeroDivisionError instead of reporting fold averages. -/
theorem C9_counterexample_single_fold_div_zero :
    run_cross_validation_for_sizes [dummyScen, dummyScen] [2] .one id
        (fun _ _ => (fun _ => 0, 0))
      = .error .zeroDivisionError := rfl

/-- Taking `a + b` elements is taking `a` then `b` more. -/
lemma take_add' {α : Type} : ∀ (a : ℕ) (l : List α) (b : ℕ),
    l.take (a + b) = l.take a ++ (l.drop a).take b := by
  intro a
  induction a with
  | zero => intro l b; simp
  | succ n ih =>
      intro l b
      cases l with
      | nil => simp
      | cons x xs =>
          rw [show n + 1 + b = (n + b) + 1 from by omega]
          rw [List.take_succ_cons, List.take_succ_cons, List.drop_succ_cons,
            List.cons_append, ih xs b]

/-- The folds are consecutive slices: their concatenation is the first
`k·f` scenarios of the shuffled copy. -/
lemma foldsOf_flatten (shuffled : List Scenario) (f : ℕ) :
    ∀ k, (foldsOf shuffled f k).flatten = shuffled.take (k * f) := by
  intro k
  induction k with
  | zero => simp [foldsOf]
  | succ n ih =>
      rw [foldsOf, List.range_succ, List.map_append, List.flatten_append]
      rw [show (List.map (fun i => (shuffled.drop (i * f)).take f) (List.range n))
          = foldsOf shuffled f n from rfl]
      rw [ih]
      simp only [List.map_cons, List.map_nil, List.flatten_cons,
        List.flatten_nil, List.append_nil]
      rw [show (n + 1) * f = n * f + f from by ring, take_add']

/-- Every fold has exactly `f` scenarios when `k·f` fits the population. -/
lemma foldsOf_mem_length {shuffled : List Scenario} {f k : ℕ}
    (hkf : k * f ≤ shuffled.length) :
    ∀ b ∈ foldsOf shuffled f k, b.length = f := by
  intro b hb
  rcases List.mem_map.mp hb with ⟨i, hi, rfl⟩
  have hi' := List.mem_range.mp hi
  rw [List.length_take, List.length_drop]
  have h1 : (i + 1) * f ≤ k * f := Nat.mul_le_mul_right f (by omega)
  have h2 : (i + 1) * f = i * f + f := by ring
  have h3 : i * f + f ≤ shuffled.length := by
    rw [← h2]
    exact h1.trans hkf
  revert h3
  generalize i * f = a
  intro h3
  omega

/-- Second components of an index-enumerated list. -/
lemma enumFrom_snd {α : Type} : ∀ (L : List α) (n : ℕ),
    (List.enumFrom n L).map (fun p => p.2) = L := by
  intro L
  induction L with
  | nil => intro n; rfl
  | cons x xs ih =>
      intro n
      rw [List.enumFrom, List.map_cons, ih (n + 1)]

/-- Filtering away an index below the start keeps everything. -/
lemma enumFrom_filter_lt {α : Type} : ∀ (L : List α) (n i : ℕ), i < n →
    (List.enumFrom n L).filter (fun p => decide (p.1 ≠ i))
      = List.enumFrom n L := by
  intro L
  induction L with
  | nil => intro n i _; rfl
  | cons x xs ih =>
      intro n i h
      rw [List.enumFrom, List.filter_cons,
        show (decide ((n, x).1 ≠ i)) = true from decide_eq_true (by omega)]
      rw [if_pos rfl, ih (n + 1) i (by omega)]

/-- Dropping exactly the entry of index `i` from an enumeration starting at
`n ≤ i` leaves the elements before and after position `i − n`. -/
lemma enumFrom_filter_ne_snd {α : Type} : ∀ (L : List α) (n i : ℕ), n ≤ i →
    ((List.enumFrom n L).filter (fun p => decide (p.1 ≠ i))).map (fun p => p.2)
      = L.take (i - n) ++ L.drop (i - n + 1) := by
  intro L
  induction L with
  | nil => intro n i _; simp
  | cons x xs ih =>
      intro n i h
      rw [List.enumFrom, List.filter_cons]
      by_cases hni : n = i
      · subst hni
        rw [show (decide ((n, x).1 ≠ n)) = false from by simp]
        rw [if_neg (by simp)]
        rw [enumFrom_filter_lt xs (n + 1) n (by omega), enumFrom_snd]
        simp
      · rw [show (decide ((n, x).1 ≠ i)) = true from decide_eq_true (by omega)]
        rw [if_pos rfl, List.map_cons, ih (n + 1) i (by omega)]
        have h1 : i - n = (i - (n + 1)) + 1 := by omega
        rw [h1, List.take_succ_cons, List.drop_succ_cons, List.cons_append]

/-- The code's enumerate-filter out-sample is the concatenation of all folds
other than fold `i`. -/
lemma outSampleOf_eq (folds : List (List Scenario)) (i : ℕ) :
    outSampleOf folds i = ((folds.take i) ++ folds.drop (i + 1)).flatten := by
  rw [outSampleOf, show folds.enum = List.enumFrom 0 folds from rfl,
    enumFrom_filter_ne_snd folds 0 i (Nat.zero_le i)]
  simp

/-- Size of the out-sample of fold `i` when all folds have length `f`. -/
lemma outSampleOf_length {folds : List (List Scenario)} {f : ℕ}
    (hlen : ∀ b ∈ folds, b.length = f) {i : ℕ} (hi : i < folds.length) :
    (outSampleOf folds i).length = (folds.length - 1) * f := by
  rw [outSampleOf_eq, List.flatten_append, List.length_append,
    flatten_length_const (fun b hb => hlen b (List.mem_of_mem_take hb)),
    flatten_length_const (fun b hb => hlen b (List.mem_of_mem_drop hb)),
    List.length_take, List.length_drop]
  rw [show min i folds.length = i from by omega, ← Nat.add_mul]
  congr 1
  omega

/-- The loop succeeds when every fold's out-sample is nonempty, returning
the per-fold in-sample and out-of-sample profits in order. -/
lemma cvLoop_ok (scheme : Scheme) (train : Scheme → List Scenario → (ℕ → ℚ) × ℚ)
    (folds : List (List Scenario)) :
    ∀ idxs : List ℕ, (∀ i ∈ idxs, (outSampleOf folds i).length ≠ 0) →
      cvLoop scheme train folds idxs
        = .ok (idxs.map (inProfitAt scheme train folds),
            idxs.map (outProfitAt scheme train folds)) := by
  intro idxs
  induction idxs with
  | nil => intro _; rfl
  | cons i rest ih =>
      intro h
      rw [cvLoop, evaluate_profit, if_neg (h i (List.mem_cons_self i rest)),
        ih (fun j hj => h j (List.mem_cons_of_mem i hj))]
      rfl

/-- numpy mean of a function mapped over `range k`, `k` nonzero. -/
lemma npMean_map_range {k : ℕ} (hk : k ≠ 0) (F : ℕ → ℚ) :
    npMean ((List.range k).map F)
      = some (((List.range k).map F).sum / k) := by
  rw [npMean, List.length_map, List.length_range, if_neg hk]

/-- C9 amended: for `1 ≤ f` and fold count `k = ⌊N/f⌋ ≥ 2` (the code
divides by zero when `k = 1` because the single fold's out-sample is
empty), the evaluator slices the shuffled copy into exactly `k` folds of
`f` scenarios each whose concatenation is the first `k·f` shuffled
scenarios (the remainder is dropped); each fold's out-sample is the
concatenation of all other folds, of size `(k−1)·f`; the trained bid of
each fold is evaluated on it by the Fixed-Strategy Evaluator; and the
returned record carries the mean in-sample profit, mean out-of-sample
profit, and their difference (mean in minus mean out). -/
theorem C9_amended_cross_validation_structure (population : List Scenario)
    (scheme : Scheme) (shuffle : List Scenario → List Scenario)
    (train : Scheme → List Scenario → (ℕ → ℚ) × ℚ) (f k : ℕ)
    (folds : List (List Scenario)) (hf : 0 < f)
    (hshuf : (shuffle population).length = population.length)
    (hkdef : k = population.length / f) (hk2 : 2 ≤ k)
    (hfolds : folds = foldsOf (shuffle population) f k) :
    folds.length = k ∧
    (∀ b ∈ folds, b.length = f) ∧
    folds.flatten = (shuffle population).take (k * f) ∧
    (∀ i, i < k →
      outSampleOf folds i = ((folds.take i) ++ folds.drop (i + 1)).flatten ∧
      (outSampleOf folds i).length = (k - 1) * f ∧
      evaluate_profit (train scheme (folds.getD i [])).1 (outSampleOf folds i)
          scheme = .ok (outProfitAt scheme train folds i)) ∧
    run_cross_validation_for_sizes population [f] scheme shuffle train
      = .ok [⟨f,
          some (((List.range k).map (inProfitAt scheme train folds)).sum / k),
          some (((List.range k).map (outProfitAt scheme train folds)).sum / k),
          some (((List.range k).map (inProfitAt scheme train folds)).sum / k
            - ((List.range k).map (outProfitAt scheme train folds)).sum / k)⟩] := by
  have hkf : k * f ≤ (shuffle population).length := by
    rw [hshuf, hkdef]
    exact Nat.div_mul_le_self population.length f
  have hlenfolds : ∀ b ∈ folds, b.length = f := by
    rw [hfolds]
    exact foldsOf_mem_length hkf
  have hfl : folds.length = k := by
    rw [hfolds, foldsOf, List.length_map, List.length_range]
  have hout : ∀ i, i < k → (outSampleOf folds i).length = (k - 1) * f := by
    intro i hi
    rw [outSampleOf_length hlenfolds (by rw [hfl]; exact hi), hfl]
  have houtne : ∀ i, i < k → (outSampleOf folds i).length ≠ 0 := by
    intro i hi
    rw [hout i hi]
    exact Nat.mul_ne_zero (by omega) (by omega)
  have hcv := cvLoop_ok scheme train folds (List.range k)
    (fun i hi => houtne i (List.mem_range.mp hi))
  refine ⟨hfl, hlenfolds, ?_, ?_, ?_⟩
  · rw [hfolds, foldsOf_flatten]
  · intro i hi
    refine ⟨outSampleOf_eq folds i, hout i hi, ?_⟩
    rw [evaluate_profit, if_neg (houtne i hi)]
    rfl
  · rw [run_cross_validation_for_sizes, runOneSize, if_neg (by omega),
      ← hkdef, ← hfolds, hcv]
    simp only [run_cross_validation_for_sizes,
      npMean_map_range (show k ≠ 0 from by omega)]

/-- Concrete training oracle for the C9 witness. -/
def wTrain : Scheme → List Scenario → (ℕ → ℚ) × ℚ := fun _ _ => (fun _ => 0, 0)

/-- Concrete folds for the C9 witness: two folds of one scenario each. -/
def wFolds : List (List Scenario) := foldsOf (id [dummyScen, dummyScen]) 1 2

/-- Witness for C9 with a 2-scenario population and fold size 1. -/
theorem C9_amended_cross_validation_structure_witness :
    ((0 : ℕ) < 1 ∧
      (id ([dummyScen, dummyScen] : List Scenario)).length
        = ([dummyScen, dummyScen] : List Scenario).length ∧
      2 = ([dummyScen, dummyScen] : List Scenario).length / 1 ∧
      2 ≤ 2 ∧ wFolds = foldsOf (id [dummyScen, dummyScen]) 1 2) ∧
    (wFolds.length = 2 ∧
      (∀ b ∈ wFolds, b.length = 1) ∧
      wFolds.flatten = (id ([dummyScen, dummyScen] : List Scenario)).take (2 * 1) ∧
      (∀ i, i < 2 →
        outSampleOf wFolds i = ((wFolds.take i) ++ wFolds.drop (i + 1)).flatten ∧
        (outSampleOf wFolds i).length = (2 - 1) * 1 ∧
        evaluate_profit (wTrain .one (wFolds.getD i [])).1 (outSampleOf wFolds i)
            .one = .ok (outProfitAt .one wTrain wFolds i)) ∧
      run_cross_validation_for_sizes [dummyScen, dummyScen] [1] .one id wTrain
        = .ok [⟨1,
            some (((List.range 2).map (inProfitAt .one wTrain wFolds)).sum / 2),
            some (((List.range 2).map (outProfitAt .one wTrain wFolds)).sum / 2),
            some (((List.range 2).map (inProfitAt .one wTrain wFolds)).sum / 2
              - ((List.range 2).map (outProfitAt .one wTrain wFolds)).sum / 2)⟩]) :=
  ⟨⟨by decide, rfl, by decide, by decide, rfl⟩,
   C9_amended_cross_validation_structure [dummyScen, dummyScen] .one id wTrain
     1 2 wFolds (by decide) rfl (by decide) (by decide) rfl⟩

end REM
